import Mathlib

/-
  Verification of fix_syntax.py, a line-rewriting script.

  The script reads a JavaScript file line by line, and for each line that
  contains one of two target substrings and whose first four characters
  contain the four-space string, replaces every occurrence of the target
  with its replacement (Python str.replace semantics), then writes all
  lines back and prints a confirmation message.

  Lines are modelled as lists of characters.  Python string operations are
  translated directly:
    - `t in s`        becomes containsSub t s
    - `s[:4]`         becomes List.take 4 s
    - `s.replace t r` becomes replaceAll t r s  (leftmost, non-overlapping,
                      all occurrences)
-/

/-- `isPre t s` is true when `t` is a prefix of `s` (character-wise). -/
def isPre : List Char → List Char → Bool
  | [], _ => true
  | _ :: _, [] => false
  | a :: as, b :: bs => a == b && isPre as bs

/-- Python `t in s`: `t` occurs as a contiguous substring of `s`. -/
def containsSub (t : List Char) : List Char → Bool
  | [] => t.isEmpty
  | c :: cs => isPre t (c :: cs) || containsSub t cs

/-- Fuelled scanner behind `replaceAll`; the fuel bounds the number of scan
steps and is instantiated with the length of the string, which always
suffices. -/
def replaceAllF (t r : List Char) : Nat → List Char → List Char
  | _, [] => []
  | 0, c :: cs => c :: cs
  | fuel + 1, c :: cs =>
    if t ≠ [] ∧ isPre t (c :: cs) = true then
      r ++ replaceAllF t r fuel (List.drop t.length (c :: cs))
    else
      c :: replaceAllF t r fuel cs

/-- Python `s.replace(t, r)`: replace every leftmost non-overlapping
occurrence of `t` in `s` by `r`. -/
def replaceAll (t r s : List Char) : List Char := replaceAllF t r s.length s

/-- Fuelled scanner behind `replaceFirst`. -/
def replaceFirstF (t r : List Char) : Nat → List Char → List Char
  | _, [] => []
  | 0, c :: cs => c :: cs
  | fuel + 1, c :: cs =>
    if t ≠ [] ∧ isPre t (c :: cs) = true then
      r ++ List.drop t.length (c :: cs)
    else
      c :: replaceFirstF t r fuel cs

/-- Modelled from the spec: replace only the first occurrence of `t` in `s`
by `r` (the spec and claim C1 speak of replacing "the first occurrence"). -/
def replaceFirst (t r s : List Char) : List Char := replaceFirstF t r s.length s

/-- Fuelled scanner behind `countOcc`. -/
def countOccF (t : List Char) : Nat → List Char → Nat
  | _, [] => 0
  | 0, _ :: _ => 0
  | fuel + 1, c :: cs =>
    if t ≠ [] ∧ isPre t (c :: cs) = true then
      countOccF t fuel (List.drop t.length (c :: cs)) + 1
    else
      countOccF t fuel cs

/-- Number of leftmost non-overlapping occurrences of `t` in `s`. -/
def countOcc (t s : List Char) : Nat := countOccF t s.length s

/-- Target of the first rule: `'const userLanguage ='`. -/
def tgtUser : List Char := "const userLanguage =".toList

/-- Replacement of the first rule: `'userLanguage ='`. -/
def rplUser : List Char := "userLanguage =".toList

/-- Target of the second rule: `'const mainMenu ='`. -/
def tgtMenu : List Char := "const mainMenu =".toList

/-- Replacement of the second rule: `'mainMenu ='`. -/
def rplMenu : List Char := "mainMenu =".toList

/-- The four-space string whose containment in the 4-character prefix gates
each rule. -/
def fourSp : List Char := "    ".toList

/-- The indentation predicate of the script: `'    ' in line[:4]`. -/
def predIndent (s : List Char) : Bool := containsSub fourSp (List.take 4 s)

/-- One `if` statement of the script: apply rule `(t, r)` to a line when the
line contains `t` and satisfies the indentation predicate. -/
def applyRule (t r s : List Char) : List Char :=
  if containsSub t s && predIndent s then replaceAll t r s else s

/-- The body of the loop for one line: the userLanguage rule, then the
mainMenu rule on the (possibly already rewritten) line, exactly as the two
sequential `if` statements of the script. -/
def fixLine (s : List Char) : List Char :=
  applyRule tgtMenu rplMenu (applyRule tgtUser rplUser s)

/-- The whole loop: every line is rewritten independently, in order. -/
def fixLines (ls : List (List Char)) : List (List Char) := ls.map fixLine

/-- The confirmation message printed on success. -/
def confirmMsg : List Char := "Fixed duplicate const declarations".toList

/-- The world the script acts on: the target file (none when it cannot be
opened for reading) and the standard output stream. -/
structure PyWorld where
  file : Option (List (List Char))
  stdout : List (List Char)

/-- The script: open for read (an unreadable file raises before anything
else runs, leaving the world unchanged and signalling failure), transform
the lines, open for write and write them back, print the confirmation.
Returns the final world and whether the run succeeded. -/
def runScript (w : PyWorld) : PyWorld × Bool :=
  match w.file with
  | none => (w, false)
  | some ls =>
      let ls2 := fixLines ls
      let w1 : PyWorld := { w with file := some ls2 }
      let w2 : PyWorld := { w1 with stdout := w1.stdout ++ [confirmMsg] }
      (w2, true)

/-! ### Concrete lines used by counterexamples and witnesses -/

/-- An indented line with two occurrences of the userLanguage target. -/
def cexMulti : List Char :=
  "    const userLanguage = a; const userLanguage = b;\n".toList

/-- A line indented by a single space: its first four characters contain a
space, yet the script leaves it unchanged. -/
def cexOneSpace : List Char := " const userLanguage = x;\n".toList

/-- A four-space-indented userLanguage line. -/
def c2wLine : List Char := "    const userLanguage = w2;\n".toList

/-- A line containing neither target. -/
def c4wLine : List Char := "hello world\n".toList

/-- The single-quote character. -/
def quoteC : Char := Char.ofNat 39

/-- The unindented line of the spec scenario: `const userLanguage = 'en';`
followed by a newline. -/
def enLine : List Char :=
  "const userLanguage = ".toList ++ [quoteC] ++ "en".toList ++ [quoteC] ++ ";\n".toList

/-- An indented line on which one rewrite recreates the target: the script
is not idempotent on it. -/
def cexConstConst : List Char := "    const const userLanguage = x;\n".toList

/-- A four-space-indented userLanguage line. -/
def c6wLine : List Char := "    const userLanguage = y;\n".toList

/-- The input line of the spec scenario of claim C7. -/
def c7in : List Char := "    const userLanguage = detectLanguage(msg);\n".toList

/-- The output line of the spec scenario of claim C7. -/
def c7out : List Char := "    userLanguage = detectLanguage(msg);\n".toList

/-- A four-space-indented mainMenu line. -/
def c10a : List Char := "    const mainMenu = buildMenu();\n".toList

/-- An unrelated line. -/
def c10b : List Char := "other\n".toList

/-! ### Helper lemmas -/

theorem isPre_length_le : ∀ t s : List Char, isPre t s = true → t.length ≤ s.length := by
  intro t
  induction t with
  | nil => intro s _; simp
  | cons a as ih =>
    intro s h
    cases s with
    | nil => simp [isPre] at h
    | cons b bs =>
      simp only [isPre, Bool.and_eq_true] at h
      simpa using ih bs h.2

theorem isPre_eq_of_length : ∀ t s : List Char, isPre t s = true →
    s.length ≤ t.length → t = s := by
  intro t
  induction t with
  | nil =>
    intro s _ hlen
    cases s with
    | nil => rfl
    | cons b bs => simp at hlen
  | cons a as ih =>
    intro s h hlen
    cases s with
    | nil => simp [isPre] at h
    | cons b bs =>
      simp only [isPre, Bool.and_eq_true, beq_iff_eq] at h
      simp only [List.length_cons, Nat.add_le_add_iff_right] at hlen
      rw [h.1, ih bs h.2 hlen]

theorem containsSub_length_le : ∀ t s : List Char, containsSub t s = true →
    t.length ≤ s.length := by
  intro t s
  induction s with
  | nil =>
    intro h
    simp only [containsSub, List.isEmpty_iff] at h
    simp [h]
  | cons c cs ih =>
    intro h
    simp only [containsSub, Bool.or_eq_true] at h
    rcases h with h | h
    · exact isPre_length_le t (c :: cs) h
    · exact Nat.le_trans (ih h) (by simp)

theorem containsSub_eq_of_length : ∀ t s : List Char, containsSub t s = true →
    s.length ≤ t.length → t = s := by
  intro t s
  induction s with
  | nil =>
    intro h _
    simp only [containsSub, List.isEmpty_iff] at h
    exact h
  | cons c cs ih =>
    intro h hlen
    simp only [containsSub, Bool.or_eq_true] at h
    rcases h with h | h
    · exact isPre_eq_of_length t (c :: cs) h hlen
    · have := containsSub_length_le t cs h
      simp only [List.length_cons] at hlen
      omega

theorem predIndent_iff_take (s : List Char) :
    predIndent s = true ↔ List.take 4 s = fourSp := by
  constructor
  · intro h
    have h1 : fourSp.length ≤ (List.take 4 s).length := containsSub_length_le _ _ h
    have h2 : (List.take 4 s).length ≤ 4 := by
      simp [List.length_take]
    have h4 : fourSp.length = 4 := by decide
    exact (containsSub_eq_of_length fourSp (List.take 4 s) h (by omega)).symm
  · intro h
    show containsSub fourSp (List.take 4 s) = true
    rw [h]
    decide

theorem fixLine_id_of_no_target (s : List Char)
    (h1 : containsSub tgtUser s = false) (h2 : containsSub tgtMenu s = false) :
    fixLine s = s := by
  simp [fixLine, applyRule, h1, h2]

theorem fixLine_id_of_not_pred (s : List Char) (h : predIndent s = false) :
    fixLine s = s := by
  simp [fixLine, applyRule, h]

theorem map_id_of_mem {α : Type} (f : α → α) :
    ∀ l : List α, (∀ x ∈ l, f x = x) → l.map f = l := by
  intro l
  induction l with
  | nil => intro _; rfl
  | cons x xs ih =>
    intro h
    simp only [List.map_cons]
    rw [h x (by simp), ih (fun y hy => h y (by simp [hy]))]

theorem countOccF_zero_replaceAllF (t r : List Char) :
    ∀ fuel s, countOccF t fuel s = 0 → replaceAllF t r fuel s = s := by
  intro fuel
  induction fuel with
  | zero => intro s _; cases s <;> simp [replaceAllF]
  | succ n ih =>
    intro s h
    cases s with
    | nil => simp [replaceAllF]
    | cons c cs =>
      by_cases hc : t ≠ [] ∧ isPre t (c :: cs) = true
      · simp [countOccF, hc] at h
      · simp only [countOccF, if_neg hc] at h
        simp [replaceAllF, if_neg hc, ih cs h]

theorem countOccF_one_replaceFirstF (t r : List Char) :
    ∀ fuel s, countOccF t fuel s = 1 →
      replaceAllF t r fuel s = replaceFirstF t r fuel s := by
  intro fuel
  induction fuel with
  | zero => intro s h; cases s <;> simp [countOccF] at h
  | succ n ih =>
    intro s h
    cases s with
    | nil => simp [countOccF] at h
    | cons c cs =>
      by_cases hc : t ≠ [] ∧ isPre t (c :: cs) = true
      · simp only [countOccF, if_pos hc, Nat.add_left_eq_self] at h
        simp only [replaceAllF, replaceFirstF, if_pos hc]
        rw [countOccF_zero_replaceAllF t r n _ h]
      · simp only [countOccF, if_neg hc] at h
        simp only [replaceAllF, replaceFirstF, if_neg hc]
        rw [ih cs h]

theorem countOcc_one_replaceFirst (t r s : List Char) (h : countOcc t s = 1) :
    replaceAll t r s = replaceFirst t r s :=
  countOccF_one_replaceFirstF t r s.length s h

/-! ### Claim theorems -/

/-- C1 (counterexample): on an indented line with two occurrences of the
userLanguage target, the script's output is not the input with only the
first occurrence replaced: Python replace rewrites all occurrences. -/
theorem claim_c1_counterexample :
    containsSub tgtUser cexMulti = true ∧ predIndent cexMulti = true ∧
    fixLine cexMulti ≠ replaceFirst tgtUser rplUser cexMulti := by decide

/-- C1 (amended): for a line satisfying the indentation predicate, the
matching rule replaces every leftmost non-overlapping occurrence of its
target (Python str.replace semantics), not only the first; when the line
contains exactly one occurrence of a target this coincides with replacing
the first occurrence. -/
theorem claim_c1_replace_all_occurrences (s : List Char) (hP : predIndent s = true) :
    (containsSub tgtUser s = true →
      fixLine s = applyRule tgtMenu rplMenu (replaceAll tgtUser rplUser s)) ∧
    (containsSub tgtUser s = false → containsSub tgtMenu s = true →
      fixLine s = replaceAll tgtMenu rplMenu s) ∧
    (∀ t r : List Char, countOcc t s = 1 → replaceAll t r s = replaceFirst t r s) := by
  refine ⟨?_, ?_, ?_⟩
  · intro hU
    have h1 : applyRule tgtUser rplUser s = replaceAll tgtUser rplUser s := by
      simp [applyRule, hU, hP]
    simp only [fixLine]
    rw [h1]
  · intro hU hM
    have h1 : applyRule tgtUser rplUser s = s := by
      simp [applyRule, hU]
    simp only [fixLine]
    rw [h1]
    simp [applyRule, hM, hP]
  · exact fun t r h => countOcc_one_replaceFirst t r s h

/-- C1 (witness): the amended claim at the two-occurrence line. -/
theorem claim_c1_witness :
    fixLine cexMulti = applyRule tgtMenu rplMenu (replaceAll tgtUser rplUser cexMulti) :=
  (claim_c1_replace_all_occurrences cexMulti (by decide)).1 (by decide)

/-- C2 (counterexample): a line indented by exactly one space contains the
target and has a space among its first four characters, yet the script
leaves it unchanged: the predicate is not mere space containment. -/
theorem claim_c2_counterexample :
    containsSub tgtUser cexOneSpace = true ∧
    (List.take 4 cexOneSpace).contains (' ') = true ∧
    fixLine cexOneSpace = cexOneSpace ∧
    cexOneSpace ≠ replaceAll tgtUser rplUser cexOneSpace := by decide

/-- C2 (amended): the gating predicate holds iff the line's first four
characters are exactly four spaces (the code tests containment of the
four-space string in the four-character prefix); for every line containing
a target whose first four characters are four spaces, the replacement is
applied. -/
theorem claim_c2_predicate_four_spaces (s : List Char) :
    (predIndent s = true ↔ List.take 4 s = fourSp) ∧
    (containsSub tgtUser s = true → List.take 4 s = fourSp →
      fixLine s = applyRule tgtMenu rplMenu (replaceAll tgtUser rplUser s)) ∧
    (containsSub tgtUser s = false → containsSub tgtMenu s = true →
      List.take 4 s = fourSp → fixLine s = replaceAll tgtMenu rplMenu s) := by
  refine ⟨predIndent_iff_take s, ?_, ?_⟩
  · intro hU ht
    have hP : predIndent s = true := (predIndent_iff_take s).mpr ht
    have h1 : applyRule tgtUser rplUser s = replaceAll tgtUser rplUser s := by
      simp [applyRule, hU, hP]
    simp only [fixLine]
    rw [h1]
  · intro hU hM ht
    have hP : predIndent s = true := (predIndent_iff_take s).mpr ht
    have h1 : applyRule tgtUser rplUser s = s := by
      simp [applyRule, hU]
    simp only [fixLine]
    rw [h1]
    simp [applyRule, hM, hP]

/-- C2 (witness): the amended claim at a four-space-indented line. -/
theorem claim_c2_witness :
    fixLine c2wLine = applyRule tgtMenu rplMenu (replaceAll tgtUser rplUser c2wLine) :=
  (claim_c2_predicate_four_spaces c2wLine).2.1 (by decide) (by decide)

/-- C3: the transformation preserves the number of lines. -/
theorem claim_c3_line_count (ls : List (List Char)) :
    (fixLines ls).length = ls.length := by
  simp [fixLines]

/-- C4: a line containing neither target substring is unchanged. -/
theorem claim_c4_identity (s : List Char)
    (h1 : containsSub tgtUser s = false) (h2 : containsSub tgtMenu s = false) :
    fixLine s = s :=
  fixLine_id_of_no_target s h1 h2

/-- C4 (witness): a line with no target is passed through. -/
theorem claim_c4_witness : fixLine c4wLine = c4wLine :=
  claim_c4_identity c4wLine (by decide) (by decide)

/-- C5: a line failing the indentation predicate is unchanged, whether or
not it contains a target substring. -/
theorem claim_c5_gating (s : List Char) (h : predIndent s = false) :
    fixLine s = s :=
  fixLine_id_of_not_pred s h

/-- C5 (witness): the unindented line `const userLanguage = 'en';` of the
spec scenario is passed through unchanged. -/
theorem claim_c5_witness : fixLine enLine = enLine :=
  claim_c5_gating enLine (by decide)

/-- C6 (counterexample): the transformation is not idempotent: replacing
`const userLanguage =` inside `const const userLanguage =` recreates the
target, so a second run changes the output again. -/
theorem claim_c6_counterexample :
    fixLines (fixLines [cexConstConst]) ≠ fixLines [cexConstConst] := by decide

/-- C6 (amended): a second run produces no further changes provided no line
of the first run's output still contains a target substring (the spec's
justification made into the necessary hypothesis). -/
theorem claim_c6_idempotent_when_targets_gone (ls : List (List Char))
    (h : ∀ l ∈ fixLines ls,
      containsSub tgtUser l = false ∧ containsSub tgtMenu l = false) :
    fixLines (fixLines ls) = fixLines ls := by
  show (fixLines ls).map fixLine = fixLines ls
  exact map_id_of_mem fixLine (fixLines ls)
    (fun x hx => fixLine_id_of_no_target x (h x hx).1 (h x hx).2)

/-- C6 (witness): the amended claim at a one-line file whose rewritten form
contains no target. -/
theorem claim_c6_witness : fixLines (fixLines [c6wLine]) = fixLines [c6wLine] :=
  claim_c6_idempotent_when_targets_gone [c6wLine] (by decide)

/-- C7: the concrete scenario of the spec: the four-space-indented
userLanguage declaration line is rewritten to the bare assignment. -/
theorem claim_c7_concrete : fixLine c7in = c7out := by decide

/-- C8: when the file cannot be opened for reading, the script stops with
failure, the file is untouched and nothing is printed. -/
theorem claim_c8_read_failure (w : PyWorld) (h : w.file = none) :
    runScript w = (w, false) := by
  simp [runScript, h]

/-- C8 (witness): a world with no readable file is returned unchanged. -/
theorem claim_c8_witness :
    runScript { file := none, stdout := [] } = ({ file := none, stdout := [] }, false) :=
  claim_c8_read_failure { file := none, stdout := [] } rfl

/-- C9: a successful run prints exactly the one confirmation line and
nothing else. -/
theorem claim_c9_confirmation (w : PyWorld) (ls : List (List Char))
    (h : w.file = some ls) (h0 : w.stdout = []) :
    (runScript w).1.stdout = [confirmMsg] ∧ (runScript w).2 = true := by
  simp [runScript, h, h0]

/-- C9 (witness): the confirmation line on an empty file. -/
theorem claim_c9_witness :
    (runScript { file := some [], stdout := [] }).1.stdout = [confirmMsg] ∧
    (runScript { file := some [], stdout := [] }).2 = true :=
  claim_c9_confirmation { file := some [], stdout := [] } [] rfl rfl

/-- C10: the transformation is a pure per-line map: output line `i` is a
function of input line `i` alone, so two inputs agreeing at index `i`
yield outputs agreeing at index `i`, and no line moves to another index. -/
theorem claim_c10_noninterference (ls1 ls2 : List (List Char)) (i : Nat) :
    (fixLines ls1)[i]? = (ls1[i]?).map fixLine ∧
    (ls1[i]? = ls2[i]? → (fixLines ls1)[i]? = (fixLines ls2)[i]?) := by
  refine ⟨?_, ?_⟩
  · simp [fixLines]
  · intro h
    simp [fixLines, h]

/-- C10 (witness): two files agreeing on line 0 give outputs agreeing on
line 0. -/
theorem claim_c10_witness :
    (fixLines [c10a])[0]? = (fixLines [c10a, c10b])[0]? :=
  (claim_c10_noninterference [c10a] [c10a, c10b] 0).2 (by decide)
